import Mathlib

/-!
Verification of the snapshot squashing / migration layer of the
SingleStore dialect of a schema-migration engine (drizzle-kit).

JavaScript strings are modelled as lists of characters (`Str`), so that
`String.prototype.split` and `Array.prototype.join` become `List.splitOn`
and `List.intercalate`, with the same edge behaviour
(`"".split(';') == [""]`, `[].join(',') == ""`).

Fallible operations (zod `parse`, JavaScript `TypeError`s on
destructuring `undefined`) are modelled with `Option`/`Except`: `none`
(resp. `.error`) is a thrown error.
-/

namespace DrizzleKit

/-- A JavaScript string: a list of characters. -/
abbrev Str := List Char

/-! ## The singlestore snapshot data model (serializer/singlestoreSchema.ts)

The zod validators `index`, `compositePK`, `uniqueConstraint`, `column`,
`table`, `schema` translate to Lean structures; the enumerated string
fields of `index` (`using`, `algorithm`, `lock`) become inductive types,
so that a value of the Lean type is exactly a value accepted by the
corresponding validator. -/

/-- `using: enumType(['btree', 'hash']).optional()`. -/
inductive IndexUsing
  | btree
  | hash
deriving DecidableEq

/-- `algorithm: enumType(['default', 'inplace', 'copy']).optional()`. -/
inductive IndexAlgorithm
  | default
  | inplace
  | copy
deriving DecidableEq

/-- `lock: enumType(['default', 'none', 'shared', 'exclusive']).optional()`. -/
inductive IndexLock
  | default
  | none
  | shared
  | exclusive
deriving DecidableEq

/-- The zod `index` object of serializer/singlestoreSchema.ts. -/
structure Index where
  name : Str
  columns : List Str
  isUnique : Bool
  «using» : Option IndexUsing
  algorithm : Option IndexAlgorithm
  lock : Option IndexLock
deriving DecidableEq

/-- The zod `compositePK` object. -/
structure PrimaryKey where
  name : Str
  columns : List Str
deriving DecidableEq

/-- The zod `uniqueConstraint` object. -/
structure UniqueConstraint where
  name : Str
  columns : List Str
deriving DecidableEq

/-- String rendering of the `using` enum values. -/
def usingStr : IndexUsing → Str
  | .btree => "btree".data
  | .hash => "hash".data

/-- String rendering of the `algorithm` enum values. -/
def algorithmStr : IndexAlgorithm → Str
  | .default => "default".data
  | .inplace => "inplace".data
  | .copy => "copy".data

/-- String rendering of the `lock` enum values. -/
def lockStr : IndexLock → Str
  | .default => "default".data
  | .none => "none".data
  | .shared => "shared".data
  | .exclusive => "exclusive".data

/-- JavaScript template interpolation of a boolean. -/
def boolStr : Bool → Str
  | true => "true".data
  | false => "false".data

/-- JavaScript `x ?? ''`: an absent optional field renders as the empty string. -/
def optFieldStr (f : α → Str) : Option α → Str
  | Option.none => []
  | Option.some a => f a

/-- `SingleStoreSquasher.squashIdx`: six `';'`-separated fields
`name;columns.join(',');isUnique;using ?? '';algorithm ?? '';lock ?? ''`.
(The leading `index.parse(idx)` always succeeds on a well-typed `Index`.) -/
def squashIdx (idx : Index) : Str :=
  idx.name ++ ';' :: ([','].intercalate idx.columns
    ++ ';' :: (boolStr idx.isUnique
    ++ ';' :: (optFieldStr usingStr idx.«using»
    ++ ';' :: (optFieldStr algorithmStr idx.algorithm
    ++ ';' :: optFieldStr lockStr idx.lock))))

/-- The zod re-parse of the `using` field inside `unsquashIdx`:
`using ? using : undefined` followed by `enumType(['btree','hash']).optional()`.
A missing positional field (`undefined`) and the empty string are both falsy,
so both map to `undefined`; a non-empty string must be a member of the
enumeration or `index.parse` throws (`none` in the model). -/
def parseUsing (field : Str) : Option (Option IndexUsing) :=
  if field = [] then some Option.none
  else if field = "btree".data then some (some .btree)
  else if field = "hash".data then some (some .hash)
  else none

/-- zod re-parse of the `algorithm` field inside `unsquashIdx`. -/
def parseAlgorithm (field : Str) : Option (Option IndexAlgorithm) :=
  if field = [] then some Option.none
  else if field = "default".data then some (some .default)
  else if field = "inplace".data then some (some .inplace)
  else if field = "copy".data then some (some .copy)
  else none

/-- zod re-parse of the `lock` field inside `unsquashIdx`. -/
def parseLock (field : Str) : Option (Option IndexLock) :=
  if field = [] then some Option.none
  else if field = "default".data then some (some .default)
  else if field = "none".data then some (some .none)
  else if field = "shared".data then some (some .shared)
  else if field = "exclusive".data then some (some .exclusive)
  else none

/-- `SingleStoreSquasher.unsquashIdx`. The array destructuring
`const [name, columnsString, isUnique, using, algorithm, lock] = input.split(';')`
leaves missing positions `undefined`; the subsequent
`columnsString.split(',')` throws a `TypeError` when `columnsString` is
`undefined` (fewer than 2 fields), `isUnique === 'true'` is `false` for
`undefined`, and the three optional fields go through the falsy check and
the zod enum. Extra fields beyond the sixth are dropped by the
destructuring. -/
def unsquashIdx (input : Str) : Option Index :=
  match input.splitOn ';' with
  | [] => none
  | [_] => none
  | name :: columnsString :: rest =>
    match parseUsing (rest.getD 1 []), parseAlgorithm (rest.getD 2 []),
        parseLock (rest.getD 3 []) with
    | some u, some a, some l =>
      some { name := name
             columns := columnsString.splitOn ','
             isUnique := rest.getD 0 [] == "true".data
             «using» := u
             algorithm := a
             lock := l }
    | _, _, _ => none

/-- `SingleStoreSquasher.squashPK`: `name;columns.join(',')`. -/
def squashPK (pk : PrimaryKey) : Str :=
  pk.name ++ ';' :: [','].intercalate pk.columns

/-- `SingleStoreSquasher.unsquashPK`: `pk.split(';')`, then
`{ name: splitted[0], columns: splitted[1].split(',') }`; throws when
`splitted[1]` is `undefined`, and ignores `splitted[2]` onwards. -/
def unsquashPK (pk : Str) : Option PrimaryKey :=
  match pk.splitOn ';' with
  | name :: columns :: _ => some { name := name, columns := columns.splitOn ',' }
  | _ => none

/-- `SingleStoreSquasher.squashUnique`: `name;columns.join(',')`. -/
def squashUnique (unq : UniqueConstraint) : Str :=
  unq.name ++ ';' :: [','].intercalate unq.columns

/-- `SingleStoreSquasher.unsquashUnique`:
`const [name, columns] = unq.split(';')`, then `columns.split(',')`. -/
def unsquashUnique (unq : Str) : Option UniqueConstraint :=
  match unq.splitOn ';' with
  | name :: columns :: _ => some { name := name, columns := columns.splitOn ',' }
  | _ => none

/-! ## Tables and snapshots (serializer/singlestoreSchema.ts) -/

/-- `generated: object({ type: enumType(['stored', 'virtual']), as: string() })`. -/
inductive GeneratedType
  | stored
  | virtual
deriving DecidableEq

/-- The `generated` sub-object of a column. -/
structure GeneratedSpec where
  type : GeneratedType
  «as» : Str
deriving DecidableEq

/-- The zod `column` object. The `any()` payloads of `default` and
`onUpdate` are opaque to the squasher and are modelled as strings. -/
structure Column where
  name : Str
  type : Str
  primaryKey : Bool
  notNull : Bool
  autoincrement : Option Bool
  default : Option Str
  onUpdate : Option Str
  generated : Option GeneratedSpec
deriving DecidableEq

/-- The zod `table` object. JavaScript `record(string(), v)` objects are
modelled as association lists of key/value pairs, preserving the key
enumeration order of `Object.entries`. -/
structure Table where
  name : Str
  columns : List (Str × Column)
  indexes : List (Str × Index)
  compositePrimaryKeys : List (Str × PrimaryKey)
  uniqueConstraints : List (Str × UniqueConstraint)
deriving DecidableEq

/-- The `_meta` object of a snapshot. -/
structure SchemaMeta where
  tables : List (Str × Str)
  columns : List (Str × Str)
deriving DecidableEq

/-- The zod `schemaInternal` object: `version: literal('1')` and
`dialect: literal('singlestore')` are kept as string fields so that the
squasher's output version can be stated. -/
structure SingleStoreSchemaInternal where
  version : Str
  dialect : Str
  tables : List (Str × Table)
  meta : SchemaMeta
deriving DecidableEq

/-- The zod `schema` object: `schemaInternal.merge(schemaHash)`. -/
structure SingleStoreSchema extends SingleStoreSchemaInternal where
  id : Str
  prevId : Str
deriving DecidableEq

/-- The `tableSquashed` object: nested indexes, composite primary keys and
unique constraints are collapsed to their squashed strings. -/
structure TableSquashed where
  name : Str
  columns : List (Str × Column)
  indexes : List (Str × Str)
  compositePrimaryKeys : List (Str × Str)
  uniqueConstraints : List (Str × Str)
deriving DecidableEq

/-- The zod `schemaSquashed` object. -/
structure SingleStoreSchemaSquashed where
  version : Str
  dialect : Str
  tables : List (Str × TableSquashed)
deriving DecidableEq

/-- Modelled from the spec: the `mapValues` helper imported from
`../global` (not under src/) maps a function over the values of a record,
preserving its keys. -/
def mapValues (f : α → β) (m : List (Str × α)) : List (Str × β) :=
  m.map (fun kv => (kv.1, f kv.2))

/-- `squashSingleStoreScheme` from serializer/singlestoreSchema.ts:
squashes every table's indexes, composite primary keys and unique
constraints, keeps name and columns, and stamps version `'1'` and the
input's dialect. -/
def squashSingleStoreScheme (json : SingleStoreSchema) : SingleStoreSchemaSquashed :=
  { version := "1".data
    dialect := json.dialect
    tables := json.tables.map (fun it =>
      (it.1,
       { name := it.2.name
         columns := it.2.columns
         indexes := mapValues squashIdx it.2.indexes
         compositePrimaryKeys := mapValues squashPK it.2.compositePrimaryKeys
         uniqueConstraints := mapValues squashUnique it.2.uniqueConstraints })) }

/-! ## The programmatic API (drizzle-kit/src/api.ts) -/

/-- Modelled from the spec: the `originUUID` sentinel from `./global`
(not under src/), the root value of the `prevId` hash-linked chain. -/
def originUUID : Str := "00000000-0000-0000-0000-000000000000".data

/-- A possibly-malformed singlestore snapshot as handed to
`singlestoreSchema.parse`: the required top-level fields may be missing
and the two literal fields may hold arbitrary strings. -/
structure RawSingleStoreSnapshot where
  version : Option Str
  dialect : Option Str
  id : Option Str
  prevId : Option Str
  tables : List (Str × Table)
  meta : Option SchemaMeta
deriving DecidableEq

/-- zod validation `singlestoreSchema.parse`: requires every field of
`schemaInternal.merge(schemaHash)` to be present, `version` to be the
literal `'1'` and `dialect` the literal `'singlestore'`. A failed parse
throws a `ZodError`, modelled as `Except.error`. -/
def singlestoreSchemaParse (r : RawSingleStoreSnapshot) : Except String SingleStoreSchema :=
  match r.version, r.dialect, r.id, r.prevId, r.meta with
  | some v, some d, some i, some p, some m =>
    if v = "1".data then
      if d = "singlestore".data then
        .ok { version := v, dialect := d, tables := r.tables, meta := m,
              id := i, prevId := p }
      else .error "invalid literal: dialect"
    else .error "invalid literal: version"
  | _, _, _, _, _ => .error "required field missing"

/-- `generateSingleStoreMigration` from api.ts: validates both snapshots
with `singlestoreSchema.parse`, squashes them, and only then hands the
squashed pair to `applySingleStoreSnapshotsDiff` (the differ lives in
`snapshotsDiffer.ts`, outside src/, and is taken as a parameter). -/
def generateSingleStoreMigration
    (applySingleStoreSnapshotsDiff :
      SingleStoreSchemaSquashed → SingleStoreSchemaSquashed → List Str)
    (prev cur : RawSingleStoreSnapshot) : Except String (List Str) := do
  let validatedPrev ← singlestoreSchemaParse prev
  let validatedCur ← singlestoreSchemaParse cur
  pure (applySingleStoreSnapshotsDiff
    (squashSingleStoreScheme validatedPrev) (squashSingleStoreScheme validatedCur))

/-- `generateMigration` (PostgreSQL) from api.ts: the pg validator,
squasher and differ live outside src/ and are taken as parameters; the
control flow (validate both, squash, then diff) is the code's. -/
def generateMigration {RawPg PgSchema PgSquashed : Type}
    (pgSchemaParse : RawPg → Except String PgSchema)
    (squashPgScheme : PgSchema → PgSquashed)
    (applyPgSnapshotsDiff : PgSquashed → PgSquashed → List Str)
    (prev cur : RawPg) : Except String (List Str) := do
  let validatedPrev ← pgSchemaParse prev
  let validatedCur ← pgSchemaParse cur
  pure (applyPgSnapshotsDiff (squashPgScheme validatedPrev) (squashPgScheme validatedCur))

/-- `generateMySQLMigration` from api.ts; same shape as `generateMigration`,
with the MySQL validator/squasher/differ as parameters. -/
def generateMySQLMigration {RawMy MySchema MySquashed : Type}
    (mysqlSchemaParse : RawMy → Except String MySchema)
    (squashMysqlScheme : MySchema → MySquashed)
    (applyMysqlSnapshotsDiff : MySquashed → MySquashed → List Str)
    (prev cur : RawMy) : Except String (List Str) := do
  let validatedPrev ← mysqlSchemaParse prev
  let validatedCur ← mysqlSchemaParse cur
  pure (applyMysqlSnapshotsDiff (squashMysqlScheme validatedPrev) (squashMysqlScheme validatedCur))

/-- `generateSQLiteMigration` from api.ts; same shape as `generateMigration`,
with the SQLite validator/squasher/differ as parameters. -/
def generateSQLiteMigration {RawSq SqSchema SqSquashed : Type}
    (sqliteSchemaParse : RawSq → Except String SqSchema)
    (squashSqliteScheme : SqSchema → SqSquashed)
    (applySqliteSnapshotsDiff : SqSquashed → SqSquashed → List Str)
    (prev cur : RawSq) : Except String (List Str) := do
  let validatedPrev ← sqliteSchemaParse prev
  let validatedCur ← sqliteSchemaParse cur
  pure (applySqliteSnapshotsDiff (squashSqliteScheme validatedPrev) (squashSqliteScheme validatedCur))

/-- The serialized-snapshot-with-identity shape `{...snapshot, id, prevId}`
produced by the `generate*DrizzleJson` functions; the serialized part `β`
is the output of the dialect serializer (outside src/). -/
structure SnapshotWithIds (β : Type) where
  serialized : β
  id : Str
  prevId : Str
deriving DecidableEq

/-- Modelled from the spec: `fillPgSnapshot` from `./migrationPreparator`
(not under src/) attaches the fresh `id` and the supplied `idPrev` to a
serialized snapshot, leaving the serialized fields unchanged. -/
def fillPgSnapshot {β : Type} (serialized : β) (id idPrev : Str) : SnapshotWithIds β :=
  { serialized := serialized, id := id, prevId := idPrev }

/-- `generateDrizzleJson` (PostgreSQL) from api.ts. `randomUUID()` is an
effect; the fresh id is passed explicitly (`id`), as is the serializer
(`prepareFromExports`/`generatePgSnapshot` live outside src/). -/
def generateDrizzleJson {α β : Type} (serialize : α → β) (id : Str)
    (imports : α) (prevId : Option Str) : SnapshotWithIds β :=
  fillPgSnapshot (serialize imports) id (prevId.getD originUUID)

/-- `generateSQLiteDrizzleJson` from api.ts:
`{ ...snapshot, id, prevId: prevId ?? originUUID }`. -/
def generateSQLiteDrizzleJson {α β : Type} (serialize : α → β) (id : Str)
    (imports : α) (prevId : Option Str) : SnapshotWithIds β :=
  { serialized := serialize imports, id := id, prevId := prevId.getD originUUID }

/-- `generateMySQLDrizzleJson` from api.ts:
`{ ...snapshot, id, prevId: prevId ?? originUUID }`. -/
def generateMySQLDrizzleJson {α β : Type} (serialize : α → β) (id : Str)
    (imports : α) (prevId : Option Str) : SnapshotWithIds β :=
  { serialized := serialize imports, id := id, prevId := prevId.getD originUUID }

/-- `generateSingleStoreDrizzleJson` from api.ts, with the concrete
singlestore serialized-snapshot type:
`{ ...snapshot, id, prevId: prevId ?? originUUID }`. -/
def generateSingleStoreDrizzleJson {α : Type}
    (serialize : α → SingleStoreSchemaInternal) (id : Str)
    (imports : α) (prevId : Option Str) : SingleStoreSchema :=
  { toSingleStoreSchemaInternal := serialize imports
    id := id
    prevId := prevId.getD originUUID }

/-- A pg snapshot as seen by `upPgSnapshot`: a `Record<string, unknown>`
whose `version` property may be absent; the remaining properties are
abstracted into `payload`. -/
structure RawPgSnapshot (σ : Type) where
  version : Option Str
  payload : σ
deriving DecidableEq

/-- `upPgSnapshot` from api.ts: dispatch on the version tag. The upgrade
steps `updateUpToV6`/`updateUpToV7` live in `cli/commands/pgUp` (outside
src/) and are taken as parameters. -/
def upPgSnapshot {σ : Type} (upPgV6 upPgV7 : RawPgSnapshot σ → RawPgSnapshot σ)
    (snapshot : RawPgSnapshot σ) : RawPgSnapshot σ :=
  if snapshot.version = some "5".data then upPgV7 (upPgV6 snapshot)
  else if snapshot.version = some "6".data then upPgV7 snapshot
  else snapshot

/-! ## Push flows: event traces (api.ts and cli/commands/push.ts)

The externally visible actions of a push run are modelled as an event
trace: each `await db.query(stmt)` contributes an `issue` event followed,
on completion of the awaited promise, by an `ack` event; each
`render(new Select([...]))` prompt contributes a prompt event carrying the
operator's answer (`false` answers are the `'No, abort'` branch, which
calls `process.exit(0)` — the trace simply ends there). -/

inductive PushEvent
  | promptStrict (approved : Bool)
  | promptDataLoss (approved : Bool)
  | issue (stmt : Str)
  | ack (stmt : Str)
deriving DecidableEq

/-- `await db.query(stmt)`: the statement is issued and acknowledged
before control returns. -/
def dbQueryEvents (stmt : Str) : List PushEvent :=
  [.issue stmt, .ack stmt]

/-- The deduplication loop of the CLI push commands:
`list.forEach(ss => { if (!unique.includes(ss)) unique.push(ss) })`. -/
def uniqueList (l : List Str) : List Str :=
  l.foldl (fun acc ss => if ss ∈ acc then acc else acc ++ [ss]) []

/-- Specification-side dedup: keep the first occurrence of each element,
in order of first occurrence. -/
def firstOccurrenceDedup : List Str → List Str
  | [] => []
  | a :: l => a :: firstOccurrenceDedup (l.filter (fun x => x ≠ a))
termination_by l => l.length
decreasing_by
  simpa using Nat.lt_succ_of_le (List.length_filter_le _ l)

/-- Accumulator-passing form of the CLI dedup loop, used to relate
`uniqueList` (a fold) to `firstOccurrenceDedup` (a recursion). -/
def dedupSkip (acc : List Str) : List Str → List Str
  | [] => []
  | a :: l => if a ∈ acc then dedupSkip acc l else a :: dedupSkip (acc ++ [a]) l

/-- The `apply` loop returned by the push API functions:
`for (const dStmnt of statementsToExecute) { await db.query(dStmnt); }`.
Each iteration appends the events of one awaited query. -/
def applyTrace (statementsToExecute : List Str) : List PushEvent :=
  statementsToExecute.foldl (fun trace stmt => trace ++ dbQueryEvents stmt) []

/-- The event trace of the CLI `singlestorePush` (cli/commands/push.ts).
Inputs that the surrounding collaborators produce are parameters: the
number of `filteredStatements`, the classifier's `statementsToExecute`,
the rendered `fromJson(filteredStatements, 'singlestore')` list, and the
operator's answers to the two prompts. Mirrors the source control flow:
empty filtered list short-circuits; the strict-mode confirmation prompt
fires when `!force && strict` and the classifier did not already ask; the
data-loss prompt fires when `!force && shouldAskForApprove`; an abort
answer exits before any statement is issued; otherwise the two
deduplicated lists are executed in order. -/
def singlestorePushTrace (force strict shouldAskForApprove : Bool)
    (filteredStatementCount : Nat)
    (statementsToExecute filteredSqlStatements : List Str)
    (strictAnswer dataLossAnswer : Bool) : List PushEvent :=
  if filteredStatementCount = 0 then []
  else
    let execEvents :=
      (uniqueList statementsToExecute ++ uniqueList filteredSqlStatements).flatMap
        dbQueryEvents
    if !force && strict && !shouldAskForApprove then
      if strictAnswer then .promptStrict true :: execEvents
      else [.promptStrict false]
    else if !force && shouldAskForApprove then
      if dataLossAnswer then .promptDataLoss true :: execEvents
      else [.promptDataLoss false]
    else execEvents

/-- The event trace of the CLI `mysqlPush` (cli/commands/push.ts); the
control flow is the same as `singlestorePush`'s. -/
def mysqlPushTrace (force strict shouldAskForApprove : Bool)
    (filteredStatementCount : Nat)
    (statementsToExecute filteredSqlStatements : List Str)
    (strictAnswer dataLossAnswer : Bool) : List PushEvent :=
  if filteredStatementCount = 0 then []
  else
    let execEvents :=
      (uniqueList statementsToExecute ++ uniqueList filteredSqlStatements).flatMap
        dbQueryEvents
    if !force && strict && !shouldAskForApprove then
      if strictAnswer then .promptStrict true :: execEvents
      else [.promptStrict false]
    else if !force && shouldAskForApprove then
      if dataLossAnswer then .promptDataLoss true :: execEvents
      else [.promptDataLoss false]
    else execEvents

/-- The value returned by `pushSingleStoreSchema` in api.ts. -/
structure PushResult where
  hasDataLoss : Bool
  warnings : List Str
  statementsToExecute : List Str
deriving DecidableEq

/-- `pushSingleStoreSchema` from api.ts, given the classifier's output
(`shouldAskForApprove`, `statementsToExecute`, `infoToPrint` from
`logSuggestionsAndReturn`): it packages the result and returns; its own
body issues none of the generated statements (the second component is the
trace of generated-DDL events in the function body, empty — only the
returned `apply` closure, modelled by `applyTrace`, executes them). -/
def pushSingleStoreSchemaRun (shouldAskForApprove : Bool)
    (statementsToExecute infoToPrint : List Str) : PushResult × List PushEvent :=
  ({ hasDataLoss := shouldAskForApprove
     warnings := infoToPrint
     statementsToExecute := statementsToExecute }, [])

/-! ## Helper lemmas on split / join -/

theorem splitOn_append_sep (sep : Char) (xs ys : Str) (h : sep ∉ xs) :
    (xs ++ sep :: ys).splitOn sep = xs :: ys.splitOn sep := by
  show (xs ++ sep :: ys).splitOnP (· == sep) = xs :: ys.splitOnP (· == sep)
  exact List.splitOnP_first (· == sep) xs
    (fun x hx hbeq => h (eq_of_beq hbeq ▸ hx)) sep (beq_self_eq_true sep) ys

theorem splitOn_eq_single (sep : Char) (xs : Str) (h : sep ∉ xs) :
    xs.splitOn sep = [xs] := by
  show xs.splitOnP (· == sep) = [xs]
  exact List.splitOnP_eq_single (· == sep) xs (fun x hx hbeq => h (eq_of_beq hbeq ▸ hx))

theorem intercalate_cons_cons (sep a b : Str) (t : List Str) :
    sep.intercalate (a :: b :: t) = a ++ sep ++ sep.intercalate (b :: t) := by
  simp [List.intercalate, List.intersperse_cons_cons, List.flatten, List.append_assoc]

theorem not_mem_intercalate_single (c s : Char) (hcs : c ≠ s) (ls : List Str)
    (hl : ∀ l ∈ ls, c ∉ l) : c ∉ [s].intercalate ls := by
  induction ls with
  | nil => simp [List.intercalate]
  | cons a t ih =>
    cases t with
    | nil =>
      simpa [List.intercalate] using hl a (List.mem_cons_self a [])
    | cons b t2 =>
      rw [intercalate_cons_cons]
      simp only [List.mem_append, List.mem_singleton, not_or]
      refine ⟨⟨hl a (List.mem_cons_self a _), hcs⟩, ?_⟩
      exact ih (fun l hml => hl l (List.mem_cons_of_mem a hml))

theorem not_mem_boolStr (b : Bool) : ';' ∉ boolStr b := by
  cases b <;> decide

theorem not_mem_optUsing (o : Option IndexUsing) : ';' ∉ optFieldStr usingStr o := by
  rcases o with _ | u
  · simp [optFieldStr]
  · cases u <;> decide

theorem not_mem_optAlgorithm (o : Option IndexAlgorithm) :
    ';' ∉ optFieldStr algorithmStr o := by
  rcases o with _ | a
  · simp [optFieldStr]
  · cases a <;> decide

theorem not_mem_optLock (o : Option IndexLock) : ';' ∉ optFieldStr lockStr o := by
  rcases o with _ | l
  · simp [optFieldStr]
  · cases l <;> decide

/-- The six fields of a squashed index, recovered by the `';'`-split, when
neither the index name nor its column references contain the delimiter. -/
theorem splitOn_squashIdx (idx : Index) (hname : ';' ∉ idx.name)
    (hcols : ∀ col ∈ idx.columns, ';' ∉ col) :
    (squashIdx idx).splitOn ';' =
      [idx.name, [','].intercalate idx.columns, boolStr idx.isUnique,
       optFieldStr usingStr idx.«using», optFieldStr algorithmStr idx.algorithm,
       optFieldStr lockStr idx.lock] := by
  unfold squashIdx
  rw [splitOn_append_sep _ _ _ hname,
    splitOn_append_sep _ _ _
      (not_mem_intercalate_single ';' ',' (by decide) idx.columns hcols),
    splitOn_append_sep _ _ _ (not_mem_boolStr idx.isUnique),
    splitOn_append_sep _ _ _ (not_mem_optUsing idx.«using»),
    splitOn_append_sep _ _ _ (not_mem_optAlgorithm idx.algorithm),
    splitOn_eq_single _ _ (not_mem_optLock idx.lock)]

theorem parseUsing_optFieldStr (o : Option IndexUsing) :
    parseUsing (optFieldStr usingStr o) = some o := by
  rcases o with _ | u
  · rfl
  · cases u <;> decide

theorem parseAlgorithm_optFieldStr (o : Option IndexAlgorithm) :
    parseAlgorithm (optFieldStr algorithmStr o) = some o := by
  rcases o with _ | a
  · rfl
  · cases a <;> decide

theorem parseLock_optFieldStr (o : Option IndexLock) :
    parseLock (optFieldStr lockStr o) = some o := by
  rcases o with _ | l
  · rfl
  · cases l <;> decide

theorem boolStr_beq_true (b : Bool) : (boolStr b == "true".data) = b := by
  cases b <;> decide

/-- Reduction of `unsquashIdx` once the six fields of the split are known. -/
theorem unsquashIdx_eq_of_fields (input n j b u a l : Str)
    (h : input.splitOn ';' = [n, j, b, u, a, l]) :
    unsquashIdx input =
      match parseUsing u, parseAlgorithm a, parseLock l with
      | some uu, some aa, some ll =>
        some { name := n, columns := j.splitOn ',', isUnique := b == "true".data,
               «using» := uu, algorithm := aa, lock := ll }
      | _, _, _ => none := by
  unfold unsquashIdx
  rw [h]
  rfl

/-- Reduction of `unsquashIdx` on any split with at least two fields. -/
theorem unsquashIdx_cons_cons (input n j : Str) (rest : List Str)
    (h : input.splitOn ';' = n :: j :: rest) :
    unsquashIdx input =
      match parseUsing (rest.getD 1 []), parseAlgorithm (rest.getD 2 []),
          parseLock (rest.getD 3 []) with
      | some uu, some aa, some ll =>
        some { name := n, columns := j.splitOn ',',
               isUnique := rest.getD 0 [] == "true".data,
               «using» := uu, algorithm := aa, lock := ll }
      | _, _, _ => none := by
  unfold unsquashIdx
  rw [h]

/-- The two fields of a squashed primary key. -/
theorem splitOn_squashPK (pk : PrimaryKey) (hname : ';' ∉ pk.name)
    (hcols : ∀ col ∈ pk.columns, ';' ∉ col) :
    (squashPK pk).splitOn ';' = [pk.name, [','].intercalate pk.columns] := by
  unfold squashPK
  rw [splitOn_append_sep _ _ _ hname,
    splitOn_eq_single _ _ (not_mem_intercalate_single ';' ',' (by decide) pk.columns hcols)]

/-- The two fields of a squashed unique constraint. -/
theorem splitOn_squashUnique (unq : UniqueConstraint) (hname : ';' ∉ unq.name)
    (hcols : ∀ col ∈ unq.columns, ';' ∉ col) :
    (squashUnique unq).splitOn ';' = [unq.name, [','].intercalate unq.columns] := by
  unfold squashUnique
  rw [splitOn_append_sep _ _ _ hname,
    splitOn_eq_single _ _ (not_mem_intercalate_single ';' ',' (by decide) unq.columns hcols)]

/-! ## Claims C1 - C3: the squasher -/

/-- C1 (counterexample): the squash/unsquash inverse law fails on a valid
value. The primary key `{ name: 'pk', columns: [] }` is accepted by the
`compositePK` validator, but `[].join(',')` is `''` and `''.split(',')`
is `['']`, so the round trip returns `columns: ['']`, not `columns: []`. -/
theorem unsquashPK_squashPK_not_inverse_on_empty_columns :
    unsquashPK (squashPK { name := "pk".data, columns := [] })
      ≠ some { name := "pk".data, columns := [] } := by
  decide

/-- C1 (amended): for every valid Index, PrimaryKey and UniqueConstraint
whose name is free of the field delimiter `';'`, whose columns list is
non-empty and whose column references are free of both delimiters `';'`
and `','`, unsquashing the squashed encoding returns the original value. -/
theorem squash_unsquash_inverse_on_delimiter_free :
    (∀ idx : Index, ';' ∉ idx.name → idx.columns ≠ [] →
      (∀ col ∈ idx.columns, ';' ∉ col ∧ ',' ∉ col) →
      unsquashIdx (squashIdx idx) = some idx) ∧
    (∀ pk : PrimaryKey, ';' ∉ pk.name → pk.columns ≠ [] →
      (∀ col ∈ pk.columns, ';' ∉ col ∧ ',' ∉ col) →
      unsquashPK (squashPK pk) = some pk) ∧
    (∀ unq : UniqueConstraint, ';' ∉ unq.name → unq.columns ≠ [] →
      (∀ col ∈ unq.columns, ';' ∉ col ∧ ',' ∉ col) →
      unsquashUnique (squashUnique unq) = some unq) := by
  refine ⟨?_, ?_, ?_⟩
  · intro idx hname hne hcols
    rw [unsquashIdx_eq_of_fields _ _ _ _ _ _ _
        (splitOn_squashIdx idx hname (fun c hc => (hcols c hc).1)),
      parseUsing_optFieldStr, parseAlgorithm_optFieldStr, parseLock_optFieldStr]
    rw [List.splitOn_intercalate _ ',' (fun c hc => (hcols c hc).2) hne,
      boolStr_beq_true]
  · intro pk hname hne hcols
    unfold unsquashPK
    rw [splitOn_squashPK pk hname (fun c hc => (hcols c hc).1)]
    show some (PrimaryKey.mk pk.name (List.splitOn ',' ([','].intercalate pk.columns)))
      = some pk
    rw [List.splitOn_intercalate _ ',' (fun c hc => (hcols c hc).2) hne]
  · intro unq hname hne hcols
    unfold unsquashUnique
    rw [splitOn_squashUnique unq hname (fun c hc => (hcols c hc).1)]
    show some (UniqueConstraint.mk unq.name (List.splitOn ',' ([','].intercalate unq.columns)))
      = some unq
    rw [List.splitOn_intercalate _ ',' (fun c hc => (hcols c hc).2) hne]

/-- C1 witness: the amended inverse law applied at a concrete index. -/
theorem squash_unsquash_inverse_witness :
    unsquashIdx (squashIdx
        { name := "idx".data, columns := ["c1".data, "c2".data], isUnique := true,
          «using» := some .hash, algorithm := Option.none, lock := some .shared })
      = some { name := "idx".data, columns := ["c1".data, "c2".data], isUnique := true,
               «using» := some .hash, algorithm := Option.none, lock := some .shared } :=
  squash_unsquash_inverse_on_delimiter_free.1 _ (by decide) (by decide) (by decide)

/-- C2 (counterexample): an input whose `';'`-split does not have the
field count the encoding requires is not always rejected. `'a;b'` splits
into 2 fields, not the 6 an index encoding carries, yet `unsquashIdx`
returns a value; `'x;y;z'` splits into 3 fields, not the 2 a primary key
encoding carries, yet `unsquashPK` returns a value. -/
theorem unsquash_accepts_wrong_field_count :
    ("a;b".data.splitOn ';').length = 2 ∧ (unsquashIdx "a;b".data).isSome = true ∧
    ("x;y;z".data.splitOn ';').length = 3 ∧ (unsquashPK "x;y;z".data).isSome = true := by
  decide

/-- `parseUsing` succeeds exactly on the empty/missing field or a member
of `['btree', 'hash']`. -/
theorem parseUsing_isSome_iff (f : Str) :
    (parseUsing f).isSome = true ↔ (f = [] ∨ f ∈ ["btree".data, "hash".data]) := by
  unfold parseUsing
  by_cases h1 : f = [] <;> by_cases h2 : f = "btree".data <;>
    by_cases h3 : f = "hash".data <;> simp [h1, h2, h3]

/-- `parseAlgorithm` succeeds exactly on the empty/missing field or a
member of `['default', 'inplace', 'copy']`. -/
theorem parseAlgorithm_isSome_iff (f : Str) :
    (parseAlgorithm f).isSome = true ↔
      (f = [] ∨ f ∈ ["default".data, "inplace".data, "copy".data]) := by
  unfold parseAlgorithm
  by_cases h1 : f = [] <;> by_cases h2 : f = "default".data <;>
    by_cases h3 : f = "inplace".data <;> by_cases h4 : f = "copy".data <;>
    simp [h1, h2, h3, h4]

/-- `parseLock` succeeds exactly on the empty/missing field or a member of
`['default', 'none', 'shared', 'exclusive']`. -/
theorem parseLock_isSome_iff (f : Str) :
    (parseLock f).isSome = true ↔
      (f = [] ∨
        f ∈ ["default".data, "none".data, "shared".data, "exclusive".data]) := by
  unfold parseLock
  by_cases h1 : f = [] <;> by_cases h2 : f = "default".data <;>
    by_cases h3 : f = "none".data <;> by_cases h4 : f = "shared".data <;>
    by_cases h5 : f = "exclusive".data <;> simp [h1, h2, h3, h4, h5]

/-- C2 (amended): the unsquash functions fail fast exactly on inputs whose
`';'`-split has fewer than 2 fields (no `';'` in the input): there
`unsquashIdx`, `unsquashPK` and `unsquashUnique` all throw. With 2 or more
fields — any count, not just the 6 resp. 2 the encoding produces —
`unsquashPK` and `unsquashUnique` always succeed, silently ignoring extra
fields, and `unsquashIdx` succeeds exactly when each of the 4th, 5th and
6th split fields is empty/missing or a member of its enumeration
(`btree`/`hash`, `default`/`inplace`/`copy`,
`default`/`none`/`shared`/`exclusive`): a wrong field count is never
itself rejected — missing trailing fields are defaulted and extras are
dropped. -/
theorem unsquash_failfast_iff_single_field :
    ∀ s : Str,
      ((s.splitOn ';').length < 2 →
        unsquashIdx s = none ∧ unsquashPK s = none ∧ unsquashUnique s = none) ∧
      (2 ≤ (s.splitOn ';').length →
        (unsquashPK s).isSome = true ∧ (unsquashUnique s).isSome = true ∧
        ((unsquashIdx s).isSome = true ↔
          ((s.splitOn ';').getD 3 [] = [] ∨
            (s.splitOn ';').getD 3 [] ∈ ["btree".data, "hash".data]) ∧
          ((s.splitOn ';').getD 4 [] = [] ∨
            (s.splitOn ';').getD 4 [] ∈
              ["default".data, "inplace".data, "copy".data]) ∧
          ((s.splitOn ';').getD 5 [] = [] ∨
            (s.splitOn ';').getD 5 [] ∈
              ["default".data, "none".data, "shared".data, "exclusive".data]))) := by
  intro s
  constructor
  · intro hlen
    cases h : s.splitOn ';' with
    | nil =>
      exact ⟨by unfold unsquashIdx; rw [h], by unfold unsquashPK; rw [h],
        by unfold unsquashUnique; rw [h]⟩
    | cons a t =>
      cases t with
      | nil =>
        exact ⟨by unfold unsquashIdx; rw [h], by unfold unsquashPK; rw [h],
          by unfold unsquashUnique; rw [h]⟩
      | cons b t2 =>
        rw [h] at hlen
        simp at hlen
        omega
  · intro hlen
    cases h : s.splitOn ';' with
    | nil => rw [h] at hlen; simp at hlen
    | cons a t =>
      cases t with
      | nil => rw [h] at hlen; simp at hlen
      | cons b t2 =>
        refine ⟨?_, ?_, ?_⟩
        · unfold unsquashPK
          rw [h]
          rfl
        · unfold unsquashUnique
          rw [h]
          rfl
        · rw [unsquashIdx_cons_cons s a b t2 h,
            show (a :: b :: t2).getD 3 ([] : Str) = t2.getD 1 [] from rfl,
            show (a :: b :: t2).getD 4 ([] : Str) = t2.getD 2 [] from rfl,
            show (a :: b :: t2).getD 5 ([] : Str) = t2.getD 3 [] from rfl,
            ← parseUsing_isSome_iff, ← parseAlgorithm_isSome_iff,
            ← parseLock_isSome_iff]
          rcases hu : parseUsing (t2.getD 1 []) with _ | u <;>
            rcases ha : parseAlgorithm (t2.getD 2 []) with _ | a2 <;>
            rcases hl : parseLock (t2.getD 3 []) with _ | l2 <;>
            simp

/-- C2 witness: the amended statement applied at an input without `';'`
(2 > field count) and at one with three fields. -/
theorem unsquash_failfast_witness :
    (unsquashIdx "abc".data = none ∧ unsquashPK "abc".data = none ∧
      unsquashUnique "abc".data = none) ∧
    (unsquashPK "x;y;z".data).isSome = true ∧
    (unsquashUnique "x;y;z".data).isSome = true :=
  ⟨(unsquash_failfast_iff_single_field "abc".data).1 (by decide),
   ((unsquash_failfast_iff_single_field "x;y;z".data).2 (by decide)).1,
   ((unsquash_failfast_iff_single_field "x;y;z".data).2 (by decide)).2.1⟩

/-- C3 (confirmed): an index whose optional `using`, `algorithm` and
`lock` fields are all absent squashes to a string whose 4th, 5th and 6th
fields are the empty string (in particular, never the literal text
`undefined` or `null`), and `unsquashIdx` maps those empty fields back to
absent fields. -/
theorem absent_optional_fields_encode_empty :
    ∀ idx : Index, idx.«using» = Option.none → idx.algorithm = Option.none →
      idx.lock = Option.none → ';' ∉ idx.name → (∀ col ∈ idx.columns, ';' ∉ col) →
      ((squashIdx idx).splitOn ';').length = 6 ∧
      ((squashIdx idx).splitOn ';').getD 3 "undefined".data = [] ∧
      ((squashIdx idx).splitOn ';').getD 4 "undefined".data = [] ∧
      ((squashIdx idx).splitOn ';').getD 5 "undefined".data = [] ∧
      ∃ r : Index, unsquashIdx (squashIdx idx) = some r ∧
        r.«using» = Option.none ∧ r.algorithm = Option.none ∧ r.lock = Option.none := by
  intro idx hu ha hl hname hcols
  have h6 := splitOn_squashIdx idx hname hcols
  rw [hu, ha, hl] at h6
  refine ⟨by rw [h6]; rfl, by rw [h6]; rfl, by rw [h6]; rfl, by rw [h6]; rfl, ?_⟩
  rw [unsquashIdx_eq_of_fields _ _ _ _ _ _ _ h6]
  exact ⟨_, rfl, rfl, rfl, rfl⟩

/-- Association-list lookup commutes with mapping over values. -/
theorem lookup_map_pair {β γ : Type} (l : List (Str × β)) (f : β → γ) (k : Str) :
    (l.map (fun kv => (kv.1, f kv.2))).lookup k = (l.lookup k).map f := by
  induction l with
  | nil => rfl
  | cons a t ih =>
    simp only [List.map_cons, List.lookup]
    cases k == a.1 <;> simp [ih]

/-- C4 (confirmed): `squashSingleStoreScheme` preserves the table keys and
each table's name and columns, replaces only the nested indexes, composite
primary keys and unique constraints by their squashed strings under the
same keys, and stamps version `'1'` and the input's dialect. -/
theorem squashSingleStoreScheme_frame :
    ∀ json : SingleStoreSchema,
      (squashSingleStoreScheme json).version = "1".data ∧
      (squashSingleStoreScheme json).dialect = json.dialect ∧
      (squashSingleStoreScheme json).tables.map Prod.fst = json.tables.map Prod.fst ∧
      ∀ k : Str,
        (squashSingleStoreScheme json).tables.lookup k =
          (json.tables.lookup k).map (fun t =>
            { name := t.name
              columns := t.columns
              indexes := mapValues squashIdx t.indexes
              compositePrimaryKeys := mapValues squashPK t.compositePrimaryKeys
              uniqueConstraints := mapValues squashUnique t.uniqueConstraints }) := by
  intro json
  refine ⟨rfl, rfl, ?_, fun k => ?_⟩
  · simp [squashSingleStoreScheme, Function.comp]
  · exact lookup_map_pair json.tables (fun t : Table =>
      ({ name := t.name
         columns := t.columns
         indexes := mapValues squashIdx t.indexes
         compositePrimaryKeys := mapValues squashPK t.compositePrimaryKeys
         uniqueConstraints := mapValues squashUnique t.uniqueConstraints } :
        TableSquashed)) k

/-- C9 (confirmed): `upPgSnapshot` dispatches on the version tag: version
`'5'` goes through the v6 step then the v7 step, version `'6'` through the
v7 step only, anything else is returned unchanged. -/
theorem upPgSnapshot_dispatch :
    ∀ {σ : Type} (upPgV6 upPgV7 : RawPgSnapshot σ → RawPgSnapshot σ)
      (s : RawPgSnapshot σ),
      (s.version = some "5".data →
        upPgSnapshot upPgV6 upPgV7 s = upPgV7 (upPgV6 s)) ∧
      (s.version = some "6".data →
        upPgSnapshot upPgV6 upPgV7 s = upPgV7 s) ∧
      (s.version ≠ some "5".data → s.version ≠ some "6".data →
        upPgSnapshot upPgV6 upPgV7 s = s) := by
  intro σ f g s
  refine ⟨fun h5 => ?_, fun h6 => ?_, fun h5 h6 => ?_⟩
  · unfold upPgSnapshot
    rw [if_pos h5]
  · unfold upPgSnapshot
    rw [if_neg (fun hc => by rw [h6] at hc; exact absurd hc (by decide)), if_pos h6]
  · unfold upPgSnapshot
    rw [if_neg h5, if_neg h6]

/-- C9 witness: the dispatch applied to a concrete version-5 snapshot. -/
theorem upPgSnapshot_dispatch_witness :
    upPgSnapshot (fun s : RawPgSnapshot Nat => ⟨some "6".data, s.payload + 1⟩)
        (fun s => ⟨s.version, s.payload * 2⟩) ⟨some "5".data, 3⟩
      = (fun s : RawPgSnapshot Nat => ⟨s.version, s.payload * 2⟩)
          ((fun s : RawPgSnapshot Nat => ⟨some "6".data, s.payload + 1⟩)
            ⟨some "5".data, 3⟩) :=
  (upPgSnapshot_dispatch _ _ _).1 rfl

/-- C7 (confirmed): each `generate*DrizzleJson` returns the serialized
snapshot unchanged (as the fields of the result other than `id` and
`prevId`), with `prevId` equal to the supplied one when given and to the
`originUUID` sentinel otherwise, and `id` the freshly generated one. -/
theorem generate_drizzle_json_prevId :
    ∀ {α β : Type} (serialize : α → β)
      (serializeS : α → SingleStoreSchemaInternal) (id : Str) (imports : α)
      (prevId : Option Str),
      ((∀ pid, prevId = some pid →
          (generateDrizzleJson serialize id imports prevId).prevId = pid) ∧
        (prevId = Option.none →
          (generateDrizzleJson serialize id imports prevId).prevId = originUUID) ∧
        (generateDrizzleJson serialize id imports prevId).id = id ∧
        (generateDrizzleJson serialize id imports prevId).serialized = serialize imports) ∧
      ((∀ pid, prevId = some pid →
          (generateSQLiteDrizzleJson serialize id imports prevId).prevId = pid) ∧
        (prevId = Option.none →
          (generateSQLiteDrizzleJson serialize id imports prevId).prevId = originUUID) ∧
        (generateSQLiteDrizzleJson serialize id imports prevId).id = id ∧
        (generateSQLiteDrizzleJson serialize id imports prevId).serialized = serialize imports) ∧
      ((∀ pid, prevId = some pid →
          (generateMySQLDrizzleJson serialize id imports prevId).prevId = pid) ∧
        (prevId = Option.none →
          (generateMySQLDrizzleJson serialize id imports prevId).prevId = originUUID) ∧
        (generateMySQLDrizzleJson serialize id imports prevId).id = id ∧
        (generateMySQLDrizzleJson serialize id imports prevId).serialized = serialize imports) ∧
      ((∀ pid, prevId = some pid →
          (generateSingleStoreDrizzleJson serializeS id imports prevId).prevId = pid) ∧
        (prevId = Option.none →
          (generateSingleStoreDrizzleJson serializeS id imports prevId).prevId = originUUID) ∧
        (generateSingleStoreDrizzleJson serializeS id imports prevId).id = id ∧
        (generateSingleStoreDrizzleJson serializeS id imports
            prevId).toSingleStoreSchemaInternal = serializeS imports) := by
  intro α β f fS id imports p
  refine ⟨⟨?_, ?_, rfl, rfl⟩, ⟨?_, ?_, rfl, rfl⟩, ⟨?_, ?_, rfl, rfl⟩, ⟨?_, ?_, rfl, rfl⟩⟩
  all_goals first
    | (intro pid h; rw [h]; rfl)
    | (intro h; rw [h]; rfl)

/-- C7 witness: the singlestore conjunct applied with a supplied `prevId`,
and the pg conjunct applied with no `prevId`. -/
theorem generate_drizzle_json_prevId_witness :
    (generateSingleStoreDrizzleJson
        (fun _ : Unit => ⟨"1".data, "singlestore".data, [], ⟨[], []⟩⟩)
        "id-1".data () (some "prev-1".data)).prevId = "prev-1".data ∧
    (generateDrizzleJson (fun _ : Unit => (0 : Nat)) "id-2".data ()
        Option.none).prevId = originUUID :=
  ⟨(generate_drizzle_json_prevId (fun _ : Unit => (0 : Nat))
      (fun _ => ⟨"1".data, "singlestore".data, [], ⟨[], []⟩⟩)
      "id-1".data () (some "prev-1".data)).2.2.2.1 "prev-1".data rfl,
   (generate_drizzle_json_prevId (fun _ : Unit => (0 : Nat))
      (fun _ => ⟨"1".data, "singlestore".data, [], ⟨[], []⟩⟩)
      "id-2".data () Option.none).1.2.1 rfl⟩

/-- C6 (confirmed): the `generate*Migration` functions validate both
snapshots before any diffing: when either validation fails, the result is
a structured error carrying zero statements; the differ is applied, to the
squashes of the two validated snapshots, only when both validations
succeed. -/
theorem generate_migration_validates_before_diff :
    (∀ (diff : SingleStoreSchemaSquashed → SingleStoreSchemaSquashed → List Str)
       (prev cur : RawSingleStoreSnapshot),
       ((singlestoreSchemaParse prev).isOk = false ∨
         (singlestoreSchemaParse cur).isOk = false) →
       ∃ e, generateSingleStoreMigration diff prev cur = .error e) ∧
    (∀ (diff : SingleStoreSchemaSquashed → SingleStoreSchemaSquashed → List Str)
       (prev cur : RawSingleStoreSnapshot) vp vc,
       singlestoreSchemaParse prev = .ok vp → singlestoreSchemaParse cur = .ok vc →
       generateSingleStoreMigration diff prev cur =
         .ok (diff (squashSingleStoreScheme vp) (squashSingleStoreScheme vc))) ∧
    (∀ {Raw Valid Squashed : Type} (parse : Raw → Except String Valid)
       (squash : Valid → Squashed) (diff : Squashed → Squashed → List Str)
       (prev cur : Raw),
       ((parse prev).isOk = false ∨ (parse cur).isOk = false) →
       (∃ e, generateMigration parse squash diff prev cur = .error e) ∧
       (∃ e, generateMySQLMigration parse squash diff prev cur = .error e) ∧
       (∃ e, generateSQLiteMigration parse squash diff prev cur = .error e)) := by
  refine ⟨?_, ?_, ?_⟩
  · intro diff prev cur h
    cases h1 : singlestoreSchemaParse prev with
    | error e => exact ⟨e, by simp only [generateSingleStoreMigration, h1]; rfl⟩
    | ok vp =>
      cases h2 : singlestoreSchemaParse cur with
      | error e => exact ⟨e, by simp only [generateSingleStoreMigration, h1, h2]; rfl⟩
      | ok vc => rw [h1, h2] at h; simp [Except.isOk, Except.toBool] at h
  · intro diff prev cur vp vc h1 h2
    simp only [generateSingleStoreMigration, h1, h2]
    rfl
  · intro Raw Valid Squashed parse squash diff prev cur h
    cases h1 : parse prev with
    | error e =>
      exact ⟨⟨e, by simp only [generateMigration, h1]; rfl⟩,
        ⟨e, by simp only [generateMySQLMigration, h1]; rfl⟩,
        ⟨e, by simp only [generateSQLiteMigration, h1]; rfl⟩⟩
    | ok vp =>
      cases h2 : parse cur with
      | error e =>
        exact ⟨⟨e, by simp only [generateMigration, h1, h2]; rfl⟩,
          ⟨e, by simp only [generateMySQLMigration, h1, h2]; rfl⟩,
          ⟨e, by simp only [generateSQLiteMigration, h1, h2]; rfl⟩⟩
      | ok vc => rw [h1, h2] at h; simp [Except.isOk, Except.toBool] at h

/-- C6 witness: a snapshot with every required field missing is rejected
and the singlestore migration generator returns an error. -/
theorem generate_migration_validates_witness :
    ∃ e, generateSingleStoreMigration (fun _ _ => [])
      ⟨Option.none, Option.none, Option.none, Option.none, [], Option.none⟩
      ⟨Option.none, Option.none, Option.none, Option.none, [], Option.none⟩
      = .error e :=
  generate_migration_validates_before_diff.1 _ _ _ (Or.inl (by decide))

/-! ## Deduplication and trace lemmas -/

theorem uniqueList_foldl (l : List Str) : ∀ acc : List Str,
    l.foldl (fun acc ss => if ss ∈ acc then acc else acc ++ [ss]) acc =
      acc ++ dedupSkip acc l := by
  induction l with
  | nil => intro acc; simp [dedupSkip]
  | cons a t ih =>
    intro acc
    simp only [List.foldl_cons, dedupSkip]
    by_cases h : a ∈ acc
    · rw [if_pos h, if_pos h, ih]
    · rw [if_neg h, if_neg h, ih]
      simp [List.append_assoc]

theorem dedupSkip_eq_filter (l : List Str) : ∀ acc : List Str,
    dedupSkip acc l = firstOccurrenceDedup (l.filter (fun x => x ∉ acc)) := by
  induction l with
  | nil => intro acc; simp [dedupSkip, firstOccurrenceDedup]
  | cons a t ih =>
    intro acc
    by_cases h : a ∈ acc
    · rw [show dedupSkip acc (a :: t) = dedupSkip acc t from if_pos h, ih]
      congr 1
      simp [List.filter_cons, h]
    · rw [show dedupSkip acc (a :: t) = a :: dedupSkip (acc ++ [a]) t from if_neg h,
        ih]
      rw [show (a :: t).filter (fun x => decide (x ∉ acc)) =
          a :: t.filter (fun x => decide (x ∉ acc)) from by simp [List.filter_cons, h]]
      rw [firstOccurrenceDedup]
      congr 1
      rw [List.filter_filter]
      exact congrArg firstOccurrenceDedup (List.filter_congr (fun x _ => by
        by_cases hx : x ∈ acc <;> by_cases hxa : x = a <;> simp [hx, hxa]))

theorem uniqueList_eq_firstOccurrenceDedup (l : List Str) :
    uniqueList l = firstOccurrenceDedup l := by
  unfold uniqueList
  rw [uniqueList_foldl l [], dedupSkip_eq_filter l []]
  simp

theorem mem_firstOccurrenceDedup (l : List Str) :
    ∀ x, x ∈ firstOccurrenceDedup l ↔ x ∈ l := by
  induction l using firstOccurrenceDedup.induct with
  | case1 => simp [firstOccurrenceDedup]
  | case2 a t ih =>
    intro x
    rw [firstOccurrenceDedup]
    simp only [List.mem_cons]
    rw [ih x]
    by_cases hxa : x = a <;> simp [hxa, List.mem_filter]

theorem nodup_firstOccurrenceDedup (l : List Str) :
    (firstOccurrenceDedup l).Nodup := by
  induction l using firstOccurrenceDedup.induct with
  | case1 => simp [firstOccurrenceDedup]
  | case2 a t ih =>
    rw [firstOccurrenceDedup]
    refine List.nodup_cons.mpr ⟨fun hmem => ?_, ih⟩
    have := (mem_firstOccurrenceDedup _ a).mp hmem
    simp [List.mem_filter] at this

theorem applyTrace_eq_flatMap (stmts : List Str) :
    applyTrace stmts = stmts.flatMap dbQueryEvents := by
  have h : ∀ (l : List Str) (acc : List PushEvent),
      l.foldl (fun trace stmt => trace ++ dbQueryEvents stmt) acc =
        acc ++ l.flatMap dbQueryEvents := by
    intro l
    induction l with
    | nil => intro acc; simp
    | cons a t ih => intro acc; simp [ih, List.append_assoc]
  simpa using h stmts []

theorem flatMap_dbQuery_get (stmts : List Str) : ∀ i : Nat,
    (stmts.flatMap dbQueryEvents)[2 * i]? = (stmts[i]?).map PushEvent.issue ∧
    (stmts.flatMap dbQueryEvents)[2 * i + 1]? = (stmts[i]?).map PushEvent.ack := by
  induction stmts with
  | nil => intro i; simp
  | cons a t ih =>
    intro i
    cases i with
    | zero => simp [dbQueryEvents]
    | succ n =>
      have h2 : 2 * (n + 1) = 2 * n + 1 + 1 := by ring
      show (PushEvent.issue a :: PushEvent.ack a :: t.flatMap dbQueryEvents)[2 * (n+1)]?
          = ((a :: t)[n+1]?).map PushEvent.issue ∧
        (PushEvent.issue a :: PushEvent.ack a :: t.flatMap dbQueryEvents)[2 * (n+1) + 1]?
          = ((a :: t)[n+1]?).map PushEvent.ack
      rw [h2]
      simpa [List.getElem?_cons_succ] using ih n

/-- The trace of `singlestorePush` with no force flag and the classifier
asking for approval: the data-loss prompt gates everything. -/
theorem singlestorePushTrace_noforce_dataloss (strict : Bool) (n : Nat)
    (stmts filtered : List Str) (sAns dAns : Bool) :
    singlestorePushTrace false strict true n stmts filtered sAns dAns =
      if n = 0 then []
      else if dAns then
        PushEvent.promptDataLoss true ::
          (uniqueList stmts ++ uniqueList filtered).flatMap dbQueryEvents
      else [PushEvent.promptDataLoss false] := by
  simp [singlestorePushTrace]

/-- The trace of `singlestorePush` with the force flag: no prompts,
straight to execution of the two deduplicated lists. -/
theorem singlestorePushTrace_force (strict shouldAsk : Bool) (n : Nat)
    (stmts filtered : List Str) (sAns dAns : Bool) :
    singlestorePushTrace true strict shouldAsk n stmts filtered sAns dAns =
      if n = 0 then []
      else (uniqueList stmts ++ uniqueList filtered).flatMap dbQueryEvents := by
  simp [singlestorePushTrace]

/-- The trace of `mysqlPush` with the force flag. -/
theorem mysqlPushTrace_force (strict shouldAsk : Bool) (n : Nat)
    (stmts filtered : List Str) (sAns dAns : Bool) :
    mysqlPushTrace true strict shouldAsk n stmts filtered sAns dAns =
      if n = 0 then []
      else (uniqueList stmts ++ uniqueList filtered).flatMap dbQueryEvents := by
  simp [mysqlPushTrace]

/-! ## Claims C5, C8, C10: push execution -/

/-- C5 (confirmed): (a) in the CLI `singlestorePush`, when the classifier
reports `shouldAskForApprove` and no force flag is passed, every issued
statement is strictly preceded in the trace by an approved data-loss
prompt; (b) with the force flag, the trace contains no prompt at all and
execution proceeds directly; (c) the programmatic `pushSingleStoreSchema`
issues none of the classifier's statements in its own body — they are
executed only by the returned `apply` closure, whose invocation is the
caller's explicit approval. -/
theorem push_approval_gate :
    ∀ (strict : Bool) (n : Nat) (stmts filtered : List Str) (sAns dAns : Bool),
      (∀ (i : Nat) (stmt : Str),
        (singlestorePushTrace false strict true n stmts filtered sAns dAns)[i]? =
          some (PushEvent.issue stmt) →
        ∃ j : Nat, j < i ∧
          (singlestorePushTrace false strict true n stmts filtered sAns dAns)[j]? =
            some (PushEvent.promptDataLoss true)) ∧
      (∀ shouldAsk : Bool,
        singlestorePushTrace true strict shouldAsk n stmts filtered sAns dAns =
          if n = 0 then []
          else (uniqueList stmts ++ uniqueList filtered).flatMap dbQueryEvents) ∧
      (∀ (shouldAsk : Bool) (info : List Str),
        (pushSingleStoreSchemaRun shouldAsk stmts info).2 = [] ∧
        applyTrace (pushSingleStoreSchemaRun shouldAsk stmts info).1.statementsToExecute =
          stmts.flatMap dbQueryEvents) := by
  intro strict n stmts filtered sAns dAns
  refine ⟨?_, ?_, fun shouldAsk info => ⟨rfl, applyTrace_eq_flatMap stmts⟩⟩
  · intro i stmt hi
    rw [singlestorePushTrace_noforce_dataloss] at hi
    by_cases hn : n = 0
    · rw [if_pos hn] at hi
      simp at hi
    · rw [if_neg hn] at hi
      cases dAns with
      | false =>
        rw [if_neg (by simp)] at hi
        cases i with
        | zero => simp at hi
        | succ j => simp at hi
      | true =>
        rw [if_pos rfl] at hi
        cases i with
        | zero => simp at hi
        | succ j =>
          refine ⟨0, Nat.succ_pos j, ?_⟩
          rw [singlestorePushTrace_noforce_dataloss, if_neg hn]
          simp
  · exact fun shouldAsk =>
      singlestorePushTrace_force strict shouldAsk n stmts filtered sAns dAns

/-- C5 witness: on a concrete data-loss push, the statement issued at
trace position 1 is preceded by the approved data-loss prompt. -/
theorem push_approval_gate_witness :
    ∃ j : Nat, j < 1 ∧
      (singlestorePushTrace false false true 1 ["x".data] [] true true)[j]? =
        some (PushEvent.promptDataLoss true) :=
  (push_approval_gate false 1 ["x".data] [] true true).1 1 "x".data (by decide)

/-- C8 (confirmed): the `apply` loop issues the classifier's
`statementsToExecute` strictly sequentially in list order — the trace is
the per-statement issue/ack pairs in order, and statement `i`'s
acknowledgment (position `2i+1`) strictly precedes statement `i+1`'s
issue (position `2i+2`). The CLI execution loops share this shape (see
`singlestorePushTrace_force`). -/
theorem apply_executes_sequentially :
    ∀ statementsToExecute : List Str,
      applyTrace statementsToExecute = statementsToExecute.flatMap dbQueryEvents ∧
      ∀ (i : Nat) (stmt next : Str),
        statementsToExecute[i]? = some stmt →
        statementsToExecute[i + 1]? = some next →
        (applyTrace statementsToExecute)[2 * i + 1]? = some (PushEvent.ack stmt) ∧
        (applyTrace statementsToExecute)[2 * i + 2]? = some (PushEvent.issue next) := by
  intro stmts
  refine ⟨applyTrace_eq_flatMap stmts, ?_⟩
  intro i stmt next hi hnext
  rw [applyTrace_eq_flatMap]
  refine ⟨?_, ?_⟩
  · rw [(flatMap_dbQuery_get stmts i).2, hi]
    rfl
  · rw [show 2 * i + 2 = 2 * (i + 1) from by ring, (flatMap_dbQuery_get stmts (i + 1)).1,
      hnext]
    rfl

/-- C8 witness: sequential execution on a concrete two-statement list. -/
theorem apply_executes_sequentially_witness :
    (applyTrace ["a".data, "b".data])[2 * 0 + 1]? = some (PushEvent.ack "a".data) ∧
    (applyTrace ["a".data, "b".data])[2 * 0 + 2]? = some (PushEvent.issue "b".data) :=
  (apply_executes_sequentially ["a".data, "b".data]).2 0 "a".data "b".data rfl rfl

/-- C10 (confirmed): the statement lists the CLI push flows execute are
deduplicated copies of the classifier's `statementsToExecute` and of the
rendered filtered statements: the dedup has no duplicates, keeps exactly
the elements of the original, in order of first occurrence
(`firstOccurrenceDedup`), and both `singlestorePush` and `mysqlPush`
execute exactly the two deduplicated lists. -/
theorem push_statement_lists_deduplicated :
    ∀ stmts filtered : List Str,
      (uniqueList stmts).Nodup ∧
      (∀ s, s ∈ uniqueList stmts ↔ s ∈ stmts) ∧
      uniqueList stmts = firstOccurrenceDedup stmts ∧
      ∀ (strict shouldAsk sAns dAns : Bool) (n : Nat),
        singlestorePushTrace true strict shouldAsk (n + 1) stmts filtered sAns dAns =
          (uniqueList stmts ++ uniqueList filtered).flatMap dbQueryEvents ∧
        mysqlPushTrace true strict shouldAsk (n + 1) stmts filtered sAns dAns =
          (uniqueList stmts ++ uniqueList filtered).flatMap dbQueryEvents := by
  intro stmts filtered
  refine ⟨?_, ?_, uniqueList_eq_firstOccurrenceDedup stmts, ?_⟩
  · rw [uniqueList_eq_firstOccurrenceDedup]
    exact nodup_firstOccurrenceDedup stmts
  · intro s
    rw [uniqueList_eq_firstOccurrenceDedup]
    exact mem_firstOccurrenceDedup stmts s
  · intro strict shouldAsk sAns dAns n
    constructor
    · rw [singlestorePushTrace_force]
      simp
    · rw [mysqlPushTrace_force]
      simp

/-- C3 witness: the empty-encoding property at a concrete index with all
optional fields absent. -/
theorem absent_optional_fields_witness :
    ∃ r : Index,
      unsquashIdx (squashIdx
        { name := "i".data, columns := ["c".data], isUnique := false,
          «using» := Option.none, algorithm := Option.none,
          lock := Option.none }) = some r ∧
      r.«using» = Option.none ∧ r.algorithm = Option.none ∧ r.lock = Option.none :=
  (absent_optional_fields_encode_empty
    { name := "i".data, columns := ["c".data], isUnique := false,
      «using» := Option.none, algorithm := Option.none, lock := Option.none }
    rfl rfl rfl (by decide) (by decide)).2.2.2.2

end DrizzleKit
